import Mathlib

/-!
Shallow embedding of the GitHub Issue Assistant backend
(`backend/app.py`, `backend/github_client.py`, `backend/llm_analyzer.py`,
`backend/config.py`) and proofs about it.

Python dictionaries/JSON values are modelled by the `Json` inductive;
timestamps (`time.time()`) by `Int`; the two external collaborators
(the GitHub HTTP API and the generative-language backend) by explicit
oracle values threaded through the functions that call them.
-/

/-- JSON values as produced by `json.loads` / consumed by the backend.
Numbers are modelled as integers (no claim depends on float payloads). -/
inductive Json where
  | null
  | bool (b : Bool)
  | num (n : Int)
  | str (s : String)
  | arr (elems : List Json)
  | obj (fields : List (String × Json))

/-- First-match lookup in a JSON object field list (Python dicts have
unique keys, so first-match agrees with dict lookup). -/
def jfind : List (String × Json) → String → Option Json
  | [], _ => none
  | e :: es, k => if e.1 = k then some e.2 else jfind es k

/-- Python `dict.get(k)` on a JSON value: `none` when the value is not an
object or the key is absent. -/
def jget : Json → String → Option Json
  | .obj fs, k => jfind fs k
  | _, _ => none

/-- Removal of the binding for a key from an object field list. -/
def objErase : List (String × Json) → String → List (String × Json)
  | [], _ => []
  | e :: es, k => if e.1 = k then objErase es k else e :: objErase es k

/-- Python dict-literal merge `{**j, k: v}`: the later binding for `k` wins.
Modelled by removing any old binding and appending the new one (key order
is not observable through `jget`). On a non-object the result is the
one-field object (this case is unreachable in the modelled code). -/
def objSet (j : Json) (k : String) (v : Json) : Json :=
  match j with
  | .obj fs => .obj (objErase fs k ++ [(k, v)])
  | _ => .obj [(k, v)]

/-- Python truthiness of a JSON value (`if cached_data:` etc.). -/
def Json.pyTruthy : Json → Bool
  | .null => false
  | .bool b => b
  | .num n => n ≠ 0
  | .str s => s ≠ ""
  | .arr xs => !xs.isEmpty
  | .obj fs => !fs.isEmpty

example : jget (.obj [("a", .num 1), ("b", .null)]) "b" = some .null := rfl

example : (objSet (.obj [("a", .num 1)]) "a" (.num 2)) = .obj [("a", .num 2)] := rfl

/-- Python exceptions, split by the only distinction `app.py` makes:
`except ValueError` (HTTP 400) versus `except Exception` (HTTP 500).
The carried string is `str(e)`. -/
inductive PyExn where
  | valueError (msg : String)
  | otherError (msg : String)
deriving DecidableEq

/-- Configuration surface consumed by the core (`config.py`): cache switch
and TTL. Timestamps and the TTL are modelled as integers. -/
structure Config where
  CACHE_ENABLED : Bool
  CACHE_TTL : Int

/-! ### github_client.py -/

/-- Outcome of one HTTP GET through `requests`: a 2xx response with a JSON
body, a non-2xx response (`raise_for_status` raises `HTTPError`; `status`
is `response.status_code` and `msg` is `str(e)`), or a network-level
`RequestException` with message `str(e)`. -/
inductive HttpOutcome where
  | success (body : Json)
  | httpError (status : Nat) (msg : String)
  | requestError (msg : String)

/-- Whether the HTTP call failed (anything but a 2xx response). -/
def HttpOutcome.isErr : HttpOutcome → Bool
  | .success _ => false
  | _ => true

/-- The literal `github.com/` prefix both regex patterns in
`parse_repo_url` require at the match position. -/
def ghPat : List Char := "github.com/".toList

/-- Whether a character list ends with the four characters `.git`. -/
def endsWithGit (r : List Char) : Bool := r.reverse.take 4 = ['t', 'i', 'g', '.']

/-- Match of the tail regex `([^/]+?)(?:\.git)?/?$` of the first pattern in
`parse_repo_url` against the whole remaining input `r` (everything after
`owner/` up to the end of the string), returning the non-greedy capture:
after stripping one optional trailing slash, the remainder must be a
nonempty run without `/`; a trailing `.git` is left out of the capture
exactly when a nonempty prefix remains before it. -/
def matchTail1 (r : List Char) : Option (List Char) :=
  let r1 := if r.getLast? = some '/' then r.dropLast else r
  if r1.isEmpty then none
  else if r1.contains '/' then none
  else if endsWithGit r1 ∧ 4 < r1.length then some (r1.take (r1.length - 4))
  else some r1

/-- Attempt of pattern `github\.com/([^/]+)/([^/]+?)(?:\.git)?/?$` at one
occurrence of `github.com/`; `rest` is the input after that literal. -/
def matchAt1 (rest : List Char) : Option (String × String) :=
  let owner := rest.takeWhile (· != '/')
  if owner.isEmpty then none
  else
    match rest.drop owner.length with
    | '/' :: r => (matchTail1 r).map (fun repo => (String.mk owner, String.mk repo))
    | _ => none

/-- Attempt of the loose pattern `github\.com/([^/]+)/([^/]+)` at one
occurrence of `github.com/`: both captures are maximal nonempty runs
without `/`; anything after the second run is ignored. -/
def matchAt2 (rest : List Char) : Option (String × String) :=
  let owner := rest.takeWhile (· != '/')
  if owner.isEmpty then none
  else
    match rest.drop owner.length with
    | '/' :: r =>
      let repo := r.takeWhile (· != '/')
      if repo.isEmpty then none else some (String.mk owner, String.mk repo)
    | _ => none

/-- Leftmost-match search (`re.search`): try the pattern at each position,
left to right; both patterns begin with the literal `github.com/`, so only
positions where that literal occurs can match. -/
def searchOcc (f : List Char → Option (String × String)) : List Char → Option (String × String)
  | [] => none
  | c :: cs =>
    if ghPat.isPrefixOf (c :: cs) then
      match f ((c :: cs).drop ghPat.length) with
      | some res => some res
      | none => searchOcc f cs
    else searchOcc f cs

/-- Python `rstrip(\x27/\x27)`: remove all trailing slash characters. -/
def rstripSlash (s : List Char) : List Char :=
  (s.reverse.dropWhile (· == '/')).reverse

/-- Python `replace(".git", "")`: remove every occurrence of the substring
`.git`, scanning left to right without overlap. -/
def removeGit : List Char → List Char
  | '.' :: 'g' :: 'i' :: 't' :: cs => removeGit cs
  | c :: cs => c :: removeGit cs
  | [] => []

/-- Cleanup `repo.rstrip(\x27/\x27).replace(\x27.git\x27, \x27\x27)` applied
to the captured repo name: strip all trailing slashes, then remove every
occurrence of the substring `.git`. -/
def cleanRepo (repo : String) : String :=
  String.mk (removeGit (rstripSlash repo.toList))

/-- GitHubClient.parse_repo_url: try the strict end-anchored pattern, then
the loose fallback; first successful match wins; clean the captured repo
name; raise `ValueError` when neither pattern matches. -/
def parse_repo_url (repo_url : String) : Except PyExn (String × String) :=
  match searchOcc matchAt1 repo_url.toList with
  | some (owner, repo) => .ok (owner, cleanRepo repo)
  | none =>
    match searchOcc matchAt2 repo_url.toList with
    | some (owner, repo) => .ok (owner, cleanRepo repo)
    | none =>
      .error (.valueError ("Invalid GitHub repository URL: " ++ repo_url ++
        ". Expected format: https://github.com/owner/repo"))

/-- GitHubClient.fetch_issue: on success return the JSON body; a 404 and a
403 become specific `ValueError`s; any other `HTTPError` and any
`RequestException` also become `ValueError`s carrying `str(e)`. -/
def fetch_issue (http : HttpOutcome) (owner repo : String) (issue_number : Nat) :
    Except PyExn Json :=
  match http with
  | .success body => .ok body
  | .httpError status msg =>
    if status = 404 then
      .error (.valueError ("Issue #" ++ toString issue_number ++ " not found in " ++
        owner ++ "/" ++ repo ++ ". Please check the repository and issue number."))
    else if status = 403 then
      .error (.valueError ("GitHub API rate limit exceeded. " ++
        "Please add a GITHUB_TOKEN to your .env file for higher limits."))
    else
      .error (.valueError ("GitHub API error: " ++ msg))
  | .requestError msg =>
    .error (.valueError ("Failed to connect to GitHub API: " ++ msg))

/-- GitHubClient.fetch_comments: return the JSON array of comment payloads
on success and `[]` on every `RequestException` (which includes the
`HTTPError` raised by `raise_for_status`). The comments endpoint returns a
JSON array; a non-array success body is modelled as no comments. -/
def fetch_comments (http : HttpOutcome) (_owner _repo : String) (_issue_number : Nat) :
    List Json :=
  match http with
  | .success (.arr xs) => xs
  | .success _ => []
  | .httpError _ _ => []
  | .requestError _ => []

/-- Lookup of a string field of a JSON object with a Python
`.get(k, default)` default. Payload fields the code reads as strings are
assumed to be strings (a well-typedness assumption on API payloads). -/
def jgetStrD (j : Json) (k : String) (d : String) : String :=
  match jget j k with
  | some (.str s) => s
  | _ => d

/-- Lookup of an integer field with a `.get(k, default)` default. -/
def jgetIntD (j : Json) (k : String) (d : Int) : Int :=
  match jget j k with
  | some (.num n) => n
  | _ => d

/-- The null-coercion `issue.get("body") or ""`: an absent, null or empty
body becomes the empty string. -/
def bodyOf (issue : Json) : String :=
  match jget issue "body" with
  | some (.str s) => s
  | _ => ""

/-- One label object reduced to its name string (`label["name"]`). -/
def labelName (l : Json) : String := jgetStrD l "name" ""

/-- The label list `[label["name"] for label in issue.get("labels", [])]`. -/
def labelsOf (issue : Json) : List String :=
  match jget issue "labels" with
  | some (.arr ls) => ls.map labelName
  | _ => []

/-- Normalized comment record. -/
structure CommentRec where
  author : String
  body : String
  created_at : String
deriving DecidableEq

/-- The author default chain `comment.get("user", \x7b\x7d).get("login", "unknown")`. -/
def commentAuthor (c : Json) : String :=
  match jget c "user" with
  | some u => jgetStrD u "login" "unknown"
  | none => "unknown"

/-- Normalization of one raw comment payload. -/
def normComment (c : Json) : CommentRec :=
  { author := commentAuthor c
    body := jgetStrD c "body" ""
    created_at := jgetStrD c "created_at" "" }

/-- Normalized issue record built by `get_issue_data`. -/
structure IssueData where
  title : String
  body : String
  state : String
  labels : List String
  comments_count : Int
  comments : List CommentRec
  created_at : String
  html_url : String
deriving DecidableEq

/-- GitHubClient.get_issue_data: parse the URL, fetch the issue, fetch the
comments (best effort), and normalize into an `IssueData` record. -/
def get_issue_data (httpIssue httpComments : HttpOutcome) (repo_url : String)
    (issue_number : Nat) : Except PyExn IssueData :=
  match parse_repo_url repo_url with
  | .error e => .error e
  | .ok (owner, repo) =>
  match fetch_issue httpIssue owner repo issue_number with
  | .error e => .error e
  | .ok issue =>
  let comments := fetch_comments httpComments owner repo issue_number
  .ok {
    title := jgetStrD issue "title" ""
    body := bodyOf issue
    state := jgetStrD issue "state" ""
    labels := labelsOf issue
    comments_count := jgetIntD issue "comments" 0
    comments := comments.map normComment
    created_at := jgetStrD issue "created_at" ""
    html_url := jgetStrD issue "html_url" "" }

example : parse_repo_url "https://github.com/octocat/Hello-World" = .ok ("octocat", "Hello-World") := rfl

example : parse_repo_url "https://github.com/octocat/Hello-World.git" = .ok ("octocat", "Hello-World") := rfl

example : parse_repo_url "https://github.com/a/b/c" = .ok ("a", "b") := rfl

example : (parse_repo_url "not a url").isOk = false := rfl

/-! ### app.py: cache and orchestration -/

/-- The module-level cache dictionary `cache: Dict[str, tuple]`, mapping a
cache key to `(data, timestamp)`. Modelled as an association list with
unique keys; `cacheFind` is dict lookup. -/
abbrev CacheDict := List (String × Json × Int)

/-- Dict lookup `cache[key]` / `key in cache`. -/
def cacheFind : CacheDict → String → Option (Json × Int)
  | [], _ => none
  | e :: es, k => if e.1 = k then some e.2 else cacheFind es k

/-- Dict deletion `del cache[key]`: remove the binding for `key`. -/
def cacheErase : CacheDict → String → CacheDict
  | [], _ => []
  | e :: es, k => if e.1 = k then cacheErase es k else e :: cacheErase es k

/-- Dict assignment `cache[key] = value`: overwrite any existing binding. -/
def cacheInsert (c : CacheDict) (k : String) (v : Json × Int) : CacheDict :=
  cacheErase c k ++ [(k, v)]

/-- app.get_cache_key: the fingerprint `f"\x7brepo_url\x7d::\x7bissue_number\x7d"`,
built from the raw input URL with no normalization. -/
def get_cache_key (repo_url : String) (issue_number : Nat) : String :=
  repo_url ++ "::" ++ toString issue_number

/-- app.get_from_cache: absent when caching is disabled; a present entry is
returned while `now - timestamp < CACHE_TTL` and deleted (then treated as
absent) otherwise. Returns the possibly-updated cache alongside the value. -/
def get_from_cache (cfg : Config) (c : CacheDict) (cache_key : String) (now : Int) :
    Option Json × CacheDict :=
  if cfg.CACHE_ENABLED then
    match cacheFind c cache_key with
    | some (data, timestamp) =>
      if now - timestamp < cfg.CACHE_TTL then (some data, c)
      else (none, cacheErase c cache_key)
    | none => (none, c)
  else (none, c)

/-- app.set_cache: store `(data, now)` under the key when caching is
enabled; no-op otherwise. -/
def set_cache (cfg : Config) (c : CacheDict) (cache_key : String) (data : Json) (now : Int) :
    CacheDict :=
  if cfg.CACHE_ENABLED then cacheInsert c cache_key (data, now) else c

/-- HTTP error response raised through FastAPI `HTTPException`. -/
structure HTTPErr where
  status : Nat
  detail : String
deriving DecidableEq

/-- The two `except` arms at the end of `analyze_issue` in app.py:
`ValueError` becomes a 400 with `str(e)`, any other exception a 500. -/
def exnToHttp : PyExn → HTTPErr
  | .valueError m => ⟨400, m⟩
  | .otherError m => ⟨500, "Internal server error: " ++ m⟩

/-! ### llm_analyzer.py -/

/-- Truncation of the issue body in create_prompt: bodies over 4000
characters are cut to their first 4000 characters with the truncation
marker appended. -/
def truncatedBody (body : String) : String :=
  if body.length > 4000 then String.mk (body.toList.take 4000) ++ "\n... (truncated for length)"
  else body

/-- One comment block of the prompt (`enumerate` starts at 1): a comment
body over 500 characters is cut to 500 characters with `...` appended. -/
def renderComment (i : Nat) (c : CommentRec) : String :=
  let comment_body := if c.body.length > 500 then String.mk (c.body.toList.take 500) ++ "..."
    else c.body
  "\nComment " ++ toString i ++ " by " ++ c.author ++ ":\n" ++ comment_body ++ "\n"

/-- The comments section of the prompt: `"No comments yet."` when the list
is empty, otherwise the blocks of the first 10 comments. -/
def commentsText (comments : List CommentRec) : String :=
  if comments.isEmpty then "No comments yet."
  else String.join ((comments.take 10).enum.map (fun p => renderComment (p.1 + 1) p.2))

/-- The fixed leading part of the prompt template, up to and including
`**Issue Title:** ` (literal braces of the Python `\x7b\x7b` escapes are
written as `\x7b`/`\x7d` here). -/
def promptHeader : String :=
  "You are an expert GitHub issue analyst. Analyze the following GitHub issue and provide a structured JSON response.\n\n" ++
  "**IMPORTANT**: You must respond with ONLY valid JSON in the exact format specified below. Do not include any markdown, explanations, or text outside the JSON object.\n\n" ++
  "Required JSON Format:\n\x7b\n" ++
  "  \"summary\": \"A comprehensive, multi-sentence paragraph (approx 50-70 words) fully explaining the issue context, the problem, and the proposed solution.\",\n" ++
  "  \"type\": \"One of: bug, feature_request, documentation, question, or other\",\n" ++
  "  \"priority_score\": \"A number from 1-5 where 1=low, 2=minor, 3=moderate, 4=high, 5=critical. Include a full sentence justification.\",\n" ++
  "  \"suggested_labels\": [\"2-3 relevant labels\"],\n" ++
  "  \"potential_impact\": \"A detailed paragraph explaining the specific consequences for users, developers, and the business if this is not addressed.\"\n\x7d\n\n" ++
  "**Few-Shot Examples:**\n\n" ++
  "Example 1 - Bug Report:\n" ++
  "Issue Title: \"Application crashes when clicking submit button\"\n" ++
  "Issue Body: \"When I click the submit button on the login form, the app crashes immediately. This happens consistently on iOS 17.\"\n" ++
  "Analysis:\n\x7b\n" ++
  "  \"summary\": \"Login form submit button causes consistent app crashes on iOS 17\",\n" ++
  "  \"type\": \"bug\",\n" ++
  "  \"priority_score\": \"5 - Critical: Blocks core functionality (login) for all iOS 17 users\",\n" ++
  "  \"suggested_labels\": [\"bug\", \"crash\", \"ios\", \"login\"],\n" ++
  "  \"potential_impact\": \"Users cannot log in on iOS 17, completely blocking app access for this user segment\"\n\x7d\n\n" ++
  "Example 2 - Feature Request:\n" ++
  "Issue Title: \"Add dark mode support\"\n" ++
  "Issue Body: \"It would be great to have a dark mode option for better viewing at night.\"\n" ++
  "Analysis:\n\x7b\n" ++
  "  \"summary\": \"Request for dark mode theme option for improved nighttime viewing experience\",\n" ++
  "  \"type\": \"feature_request\",\n" ++
  "  \"priority_score\": \"2 - Low: Nice-to-have enhancement, not blocking any functionality\",\n" ++
  "  \"suggested_labels\": [\"enhancement\", \"ui\", \"dark-mode\"],\n" ++
  "  \"potential_impact\": \"Would improve user experience for users who prefer dark interfaces, but no current functionality is broken\"\n\x7d\n\n" ++
  "Example 3 - Question:\n" ++
  "Issue Title: \"How to configure SSL certificates?\"\n" ++
  "Issue Body: \"I\x27m trying to set up SSL but can\x27t find documentation on where to place the certificates.\"\n" ++
  "Analysis:\n\x7b\n" ++
  "  \"summary\": \"User needs guidance on SSL certificate configuration and file placement\",\n" ++
  "  \"type\": \"question\",\n" ++
  "  \"priority_score\": \"3 - Moderate: Indicates documentation gap affecting user onboarding\",\n" ++
  "  \"suggested_labels\": [\"question\", \"documentation\", \"ssl\"],\n" ++
  "  \"potential_impact\": \"May indicate unclear documentation that could confuse other users during setup\"\n\x7d\n\n" ++
  "---\n\n" ++
  "Now analyze this issue:\n\n" ++
  "**Issue Title:** "

/-- LLMAnalyzer.create_prompt: deterministic template instantiation from
the normalized issue record (the record always carries every key the
source reads with `.get`, so the `.get` defaults never fire). -/
def create_prompt (d : IssueData) : String :=
  let body := truncatedBody d.body
  let comments_text := commentsText d.comments
  promptHeader ++ d.title ++ "\n\n**Issue Body:**\n" ++
  (if body = "" then "No description provided" else body) ++
  "\n\n**Comments:**\n" ++ comments_text ++ "\n\n**Existing Labels:** " ++
  (if d.labels.isEmpty then "None" else String.intercalate ", " d.labels) ++
  "\n\nProvide your analysis as valid JSON only:"

/-- The fence marker the response parser looks for. -/
def fencePat : List Char := "```".toList

/-- Python `str.strip()`: remove leading and trailing whitespace. -/
def pyStrip (s : List Char) : List Char :=
  ((s.dropWhile Char.isWhitespace).reverse.dropWhile Char.isWhitespace).reverse

/-- Python `split(\x27\n\x27)` on characters. -/
def splitNlAux : List Char → List Char → List (List Char)
  | [], acc => [acc.reverse]
  | '\n' :: cs, acc => acc.reverse :: splitNlAux cs []
  | c :: cs, acc => splitNlAux cs (c :: acc)

/-- Split a character list at newline characters (Python `split(\x27\n\x27)`). -/
def splitNl (s : List Char) : List (List Char) := splitNlAux s []

/-- Python `\x27\n\x27.join` on character-list lines. -/
def joinNl : List (List Char) → List Char
  | [] => []
  | [l] => l
  | l :: ls => l ++ '\n' :: joinNl ls

/-- The fence-scanning loop of parse_response: walk the lines; the first
line whose stripped form starts with the fence sets `start_idx` to the next
index (0 is the unset sentinel), the next such line sets `end_idx` and
stops; `end_idx` defaults to the number of lines. -/
def fenceSpanAux : List (List Char) → Nat → Nat → Nat → Nat × Nat
  | [], _, start_idx, total => (start_idx, total)
  | l :: ls, i, start_idx, total =>
    if fencePat.isPrefixOf (pyStrip l) then
      if start_idx = 0 then fenceSpanAux ls (i + 1) (i + 1) total
      else (start_idx, i)
    else fenceSpanAux ls (i + 1) start_idx total

/-- Extraction of the interior of a fenced block: join the line slice
`lines[start_idx:end_idx]` back with newlines. -/
def extractFenced (t : List Char) : List Char :=
  let lines := splitNl t
  let se := fenceSpanAux lines 0 0 lines.length
  joinNl ((lines.take se.2).drop se.1)

/-- Substring test (Python `k in s` for strings). -/
def containsSub (pat : List Char) : List Char → Bool
  | [] => pat.isEmpty
  | c :: cs => pat.isPrefixOf (c :: cs) || containsSub pat cs

/-- The five required fields, in the order the source checks them. -/
def requiredFields : List String :=
  ["summary", "type", "priority_score", "suggested_labels", "potential_impact"]

/-- The five valid `type` values. -/
def validTypes : List String :=
  ["bug", "feature_request", "documentation", "question", "other"]

/-- Membership of a JSON value in a list of strings (Python `x in [str...]`):
true exactly for an equal string. -/
def Json.isStrIn (j : Json) (ks : List String) : Bool :=
  match j with
  | .str s => ks.contains s
  | _ => false

/-- Python `k in data`: key lookup on a dict, element equality on a list,
substring test on a string, `TypeError` otherwise. -/
def pyContains (data : Json) (k : String) : Except String Bool :=
  match data with
  | .obj fs => .ok (jfind fs k).isSome
  | .arr xs => .ok (xs.any (fun x => match x with | .str s => s == k | _ => false))
  | .str s => .ok (containsSub k.toList s.toList)
  | _ => .error "TypeError: argument is not iterable"

/-- Python `data[k]` with a string key: dict lookup; `KeyError` when the
key is absent, `TypeError` on non-dicts. -/
def pyIndex (data : Json) (k : String) : Except String Json :=
  match data with
  | .obj fs =>
    match jfind fs k with
    | some v => .ok v
    | none => .error ("KeyError: " ++ k)
  | _ => .error "TypeError: value is not subscriptable by a string key"

/-- Python `str(...)` of a JSON scalar. Containers are approximated by a
constant marker: `validateParsed` never stringifies an array (the array
case is guarded), and no claim stringifies an object. -/
def pyStr : Json → String
  | .str s => s
  | .num n => toString n
  | .bool b => if b then "True" else "False"
  | .null => "None"
  | .arr _ => "[...]"
  | .obj _ => "\x7b...\x7d"

/-- The required-field loop of parse_response: checks the fields in order
and raises `ValueError` at the first missing one. -/
def checkFields (data : Json) : List String → Except String Unit
  | [] => .ok ()
  | f :: fs =>
    match pyContains data f with
    | .error e => .error e
    | .ok true => checkFields data fs
    | .ok false => .error ("Missing required field: " ++ f)

/-- Whether a JSON value is an array (Python `isinstance(x, list)`). -/
def Json.isArr : Json → Bool
  | .arr _ => true
  | _ => false

/-- The post-parse validation of parse_response: all five required fields
must be present; an unrecognized `type` is coerced to `"other"`; a
non-list `suggested_labels` is wrapped as `[str(value)]`. -/
def validateParsed (data : Json) : Except String Json :=
  match checkFields data requiredFields with
  | .error e => .error e
  | .ok _ =>
  match pyIndex data "type" with
  | .error e => .error e
  | .ok t =>
  let data1 := if t.isStrIn validTypes then data else objSet data "type" (.str "other")
  match pyIndex data1 "suggested_labels" with
  | .error e => .error e
  | .ok l =>
  .ok (if l.isArr then data1 else objSet data1 "suggested_labels" (.arr [.str (pyStr l)]))

/-- The text parse_response hands to `json.loads`: the stripped input,
with the interior extracted when it opens with a fence. -/
def stripFence (response_text : String) : List Char :=
  let t0 := pyStrip response_text.toList
  if fencePat.isPrefixOf t0 then extractFenced t0 else t0

/-- The decoding-and-validation stage of parse_response on the prepared
text `t1`. -/
def parseDecoded (decode : String → Except String Json) (t1 : List Char) :
    Except String Json :=
  match decode (String.mk t1) with
  | .ok data => validateParsed data
  | .error e =>
    .error ("Failed to parse LLM response as JSON: " ++ e ++ "\nResponse: " ++
      String.mk (t1.take 200))

/-- LLMAnalyzer.parse_response: strip the text, extract the interior of a
leading fenced block if present, decode as JSON (`decode` stands for
`json.loads`; its error string is the `JSONDecodeError` message), then
validate. A decode failure is re-raised as `ValueError` carrying the
first 200 characters of the offending text. -/
def parse_response (decode : String → Except String Json) (response_text : String) :
    Except String Json :=
  parseDecoded decode (stripFence response_text)

/-- The hardcoded fallback dictionary returned when every attempt failed;
`errMsg` is `str(e)` of the exception that reached the outer handler. -/
def fallbackResult (errMsg : String) : Json :=
  .obj [
    ("summary", .str ("Analysis unavailable: " ++ errMsg)),
    ("type", .str "other"),
    ("priority_score", .str "3 - Unable to determine automatically"),
    ("suggested_labels", .arr [.str "needs-triage"]),
    ("potential_impact", .str "Unable to analyze due to LLM error")]

/-- One attempt of the retry loop: call the model (`gen attempt prompt`,
an oracle for `generate_content` followed by `.text`, whose error string
is `str` of the raised exception) and parse the result. -/
def attemptLLM (gen : Nat → String → Except String String)
    (decode : String → Except String Json) (d : IssueData) (attempt : Nat) :
    Except String Json :=
  match gen attempt (create_prompt d) with
  | .error e => .error e
  | .ok response_text => parse_response decode response_text

/-- LLMAnalyzer.analyze_issue: up to 2 attempts (`max_retries = 2`); a
successful attempt returns its analysis; when both fail, the retry loop
raises `ValueError` naming the most recent error and the outer handler
converts it into the fallback dictionary, so the function always returns
a dictionary and never raises. -/
def analyze_issue (gen : Nat → String → Except String String)
    (decode : String → Except String Json) (d : IssueData) : Json :=
  match attemptLLM gen decode d 0 with
  | .ok analysis => analysis
  | .error _ =>
    match attemptLLM gen decode d 1 with
    | .ok analysis => analysis
    | .error e => fallbackResult ("LLM analysis failed after 2 attempts: " ++ e)

/-! ### app.py: the /api/analyze handler -/

/-- The external collaborators of one request: the two GitHub endpoint
outcomes, the model backend and `json.loads`. -/
structure World where
  httpIssue : HttpOutcome
  httpComments : HttpOutcome
  gen : Nat → String → Except String String
  decode : String → Except String Json

/-- The metadata mapping attached to a fresh response (the cache-hit flag
is hardcoded `False` at store time). -/
def metaJson (issue_data : IssueData) : Json :=
  .obj [
    ("issue_url", .str issue_data.html_url),
    ("issue_state", .str issue_data.state),
    ("comments_count", .num issue_data.comments_count),
    ("created_at", .str issue_data.created_at),
    ("cached", .bool false)]

/-- The cache-miss path of the handler: fetch the issue data (a
`ValueError` becomes HTTP 400, any other exception HTTP 500), analyze it,
attach the metadata mapping (with `cached = False`), store the result, and
return it. The third component records whether the Retriever/Engine were
invoked. -/
def handleCore (cfg : Config) (w : World) (now : Int) (c1 : CacheDict) (cache_key : String)
    (repo_url : String) (issue_number : Nat) :
    Except HTTPErr Json × CacheDict × Bool :=
  match get_issue_data w.httpIssue w.httpComments repo_url issue_number with
  | .error e => (.error (exnToHttp e), c1, true)
  | .ok issue_data =>
    let analysis := analyze_issue w.gen w.decode issue_data
    let response_data := objSet analysis "metadata" (metaJson issue_data)
    (.ok response_data, set_cache cfg c1 cache_key response_data now, true)

/-- The POST /api/analyze handler body: compute the fingerprint, consult
the cache (`if cached_data:` is Python truthiness), and on a hit return
the stored data without touching the Retriever or the Engine. -/
def handleAnalyze (cfg : Config) (w : World) (now : Int) (c : CacheDict)
    (repo_url : String) (issue_number : Nat) :
    Except HTTPErr Json × CacheDict × Bool :=
  match get_from_cache cfg c (get_cache_key repo_url issue_number) now with
  | (some cached_data, c1) =>
    if cached_data.pyTruthy then (.ok cached_data, c1, false)
    else handleCore cfg w now c1 (get_cache_key repo_url issue_number) repo_url issue_number
  | (none, c1) =>
    handleCore cfg w now c1 (get_cache_key repo_url issue_number) repo_url issue_number

/-! ### Auxiliary predicates used by the claims -/

/-- Whether an optional JSON value is a string. -/
def isStrVal : Option Json → Bool
  | some (.str _) => true
  | _ => false

/-- Schema conformance of an analysis dictionary: the five fields are
present, `type` is one of the five enumerated values, and
`suggested_labels` is a list. -/
def isSchemaConforming (j : Json) : Bool :=
  isStrVal (jget j "summary") &&
  (match jget j "type" with | some t => t.isStrIn validTypes | none => false) &&
  isStrVal (jget j "priority_score") &&
  (match jget j "suggested_labels" with | some l => l.isArr | none => false) &&
  isStrVal (jget j "potential_impact")

/-- The `cached` flag inside the metadata of a response dictionary. -/
def metaCachedFlag (d : Json) : Option Json :=
  (jget d "metadata").bind (fun m => jget m "cached")

/-- Cache-content invariant: every stored value carries `cached = False`
in its metadata (all values the code ever stores do). -/
def goodCache (c : CacheDict) : Prop :=
  ∀ k v ts, cacheFind c k = some (v, ts) → metaCachedFlag v = some (.bool false)

/-! ### Helper lemmas -/

lemma cacheFind_insert_self (c : CacheDict) (k : String) (v : Json × Int) :
    cacheFind (cacheInsert c k v) k = some v := by
  unfold cacheInsert
  induction c with
  | nil => simp [cacheErase, cacheFind]
  | cons e es ih =>
    by_cases h : e.1 = k
    · simpa [cacheErase, h] using ih
    · simpa [cacheErase, h, cacheFind] using ih

lemma cacheFind_insert_ne (c : CacheDict) (k k' : String) (v : Json × Int) (h : k' ≠ k) :
    cacheFind (cacheInsert c k v) k' = cacheFind c k' := by
  have h' : ¬ (k = k') := fun hh => h hh.symm
  unfold cacheInsert
  induction c with
  | nil => simp [cacheErase, cacheFind, h']
  | cons e es ih =>
    by_cases he : e.1 = k
    · have he2 : ¬ (e.1 = k') := by rw [he]; exact h'
      simp [cacheErase, he, cacheFind, he2, h', h, ih]
    · by_cases he2 : e.1 = k'
      · simp [cacheErase, he, cacheFind, he2, h', h]
      · simp [cacheErase, he, cacheFind, he2, h', h, ih]

lemma cacheFind_erase (c : CacheDict) (k k' : String) :
    cacheFind (cacheErase c k) k' = if k' = k then none else cacheFind c k' := by
  induction c with
  | nil => simp [cacheErase, cacheFind]
  | cons e es ih =>
    by_cases he : e.1 = k
    · by_cases hk : k' = k
      · simpa [cacheErase, he, hk] using ih
      · have hk' : ¬ (k = k') := fun hh => hk hh.symm
        simp [cacheErase, he, cacheFind, hk, hk', ih]
    · by_cases he2 : e.1 = k'
      · have hk : ¬ (k' = k) := by rw [← he2]; exact he
        simp [cacheErase, he, cacheFind, he2, hk]
      · simp [cacheErase, he, cacheFind, he2, ih]

lemma jfind_objErase_append (fs : List (String × Json)) (k : String)
    (rest : List (String × Json)) :
    jfind (objErase fs k ++ rest) k = jfind rest k := by
  induction fs with
  | nil => simp [objErase]
  | cons e es ih =>
    by_cases h : e.1 = k
    · simpa [objErase, h] using ih
    · simpa [objErase, h, jfind] using ih

lemma jget_objSet_self (j : Json) (k : String) (v : Json) :
    jget (objSet j k v) k = some v := by
  cases j <;> simp [objSet, jget, jfind, jfind_objErase_append]

lemma jget_objSet_ne (j : Json) (k k' : String) (v : Json) (hne : k' ≠ k) :
    jget (objSet j k v) k' = jget j k' := by
  have h' : ¬ (k = k') := fun hh => hne hh.symm
  cases j with
  | obj fs =>
    simp only [objSet, jget]
    induction fs with
    | nil => simp [objErase, jfind, h']
    | cons e es ih =>
      by_cases he : e.1 = k
      · have he2 : ¬ (e.1 = k') := by rw [he]; exact h'
        simp [objErase, he, jfind, he2, h', hne, ih]
      · by_cases he2 : e.1 = k'
        · simp [objErase, he, jfind, he2, h', hne]
        · simp [objErase, he, jfind, he2, h', hne, ih]
  | null => simp [objSet, jget, jfind, h']
  | bool b => simp [objSet, jget, jfind, h']
  | num n => simp [objSet, jget, jfind, h']
  | str s => simp [objSet, jget, jfind, h']
  | arr xs => simp [objSet, jget, jfind, h']

lemma objSet_pyTruthy (j : Json) (k : String) (v : Json) :
    (objSet j k v).pyTruthy = true := by
  cases j with
  | obj fs =>
    simp only [objSet, Json.pyTruthy]
    cases hh : objErase fs k ++ [(k, v)] with
    | nil => simp at hh
    | cons x xs => simp [List.isEmpty]
  | null => simp [objSet, Json.pyTruthy]
  | bool b => simp [objSet, Json.pyTruthy]
  | num n => simp [objSet, Json.pyTruthy]
  | str s => simp [objSet, Json.pyTruthy]
  | arr xs => simp [objSet, Json.pyTruthy]

/-! ### Claim theorems -/

/-- Example configurations and inputs used by witnesses. -/
def cfgOn : Config := ⟨true, 3600⟩

def cfgOff : Config := ⟨false, 3600⟩

/-- C2: Cache lookup contract: lookup returns the stored value iff caching
is enabled, the key is present and `now - insertedAt < CACHE_TTL`; with
caching disabled it always returns absent; a present-but-expired entry
(`now - insertedAt >= TTL`) is deleted and reported absent, so an expired
entry is never read. -/
theorem c2_cache_lookup_contract (cfg : Config) (c : CacheDict) (key : String) (now : Int)
    (v : Json) :
    ((get_from_cache cfg c key now).1 = some v ↔
      cfg.CACHE_ENABLED = true ∧
        ∃ ts, cacheFind c key = some (v, ts) ∧ now - ts < cfg.CACHE_TTL) ∧
    (cfg.CACHE_ENABLED = false → get_from_cache cfg c key now = (none, c)) ∧
    (∀ v' ts, cfg.CACHE_ENABLED = true → cacheFind c key = some (v', ts) →
      cfg.CACHE_TTL ≤ now - ts →
      get_from_cache cfg c key now = (none, cacheErase c key) ∧
      cacheFind (get_from_cache cfg c key now).2 key = none) := by
  refine ⟨⟨?_, ?_⟩, ?_, ?_⟩
  · intro h
    by_cases he : cfg.CACHE_ENABLED = true
    · refine ⟨he, ?_⟩
      rcases hf : cacheFind c key with _ | ⟨data, ts⟩
      · simp [get_from_cache, he, hf] at h
      · by_cases ht : now - ts < cfg.CACHE_TTL
        · refine ⟨ts, ?_, ht⟩
          simp [get_from_cache, he, hf, ht] at h
          subst h
          rfl
        · simp [get_from_cache, he, hf, ht] at h
    · have he' : cfg.CACHE_ENABLED = false := by
        cases hx : cfg.CACHE_ENABLED
        · rfl
        · exact absurd hx he
      simp [get_from_cache, he'] at h
  · rintro ⟨he, ts, hf, ht⟩
    simp [get_from_cache, he, hf, ht]
  · intro hd
    simp [get_from_cache, hd]
  · intro v' ts he hf ht
    have hlt : ¬ (now - ts < cfg.CACHE_TTL) := not_lt.mpr ht
    constructor
    · simp [get_from_cache, he, hf, hlt]
    · simp [get_from_cache, he, hf, hlt, cacheFind_erase]

theorem c2_witness :
    (get_from_cache cfgOn [("k", (.str "x", 0))] "k" 10).1 = some (.str "x") :=
  (c2_cache_lookup_contract cfgOn [("k", (.str "x", 0))] "k" 10 (.str "x")).1.mpr
    ⟨rfl, 0, rfl, by decide⟩

/-- C7: parseReference tries the strict pattern then the loose fallback,
returns the first match with the repo name cleaned of trailing slashes and
any `.git` substring, and raises `InvalidReference` (`ValueError`) when no
pattern matches; in particular the two octocat spellings both yield
`("octocat", "Hello-World")` and `"not a url"` is rejected. -/
theorem c7_parse_reference_contract :
    parse_repo_url "https://github.com/octocat/Hello-World" = .ok ("octocat", "Hello-World") ∧
    parse_repo_url "https://github.com/octocat/Hello-World.git" =
      .ok ("octocat", "Hello-World") ∧
    parse_repo_url "not a url" = .error (.valueError
      "Invalid GitHub repository URL: not a url. Expected format: https://github.com/owner/repo") ∧
    (∀ u o r, searchOcc matchAt1 u.toList = some (o, r) →
      parse_repo_url u = .ok (o, cleanRepo r)) ∧
    (∀ u o r, searchOcc matchAt1 u.toList = none → searchOcc matchAt2 u.toList = some (o, r) →
      parse_repo_url u = .ok (o, cleanRepo r)) ∧
    (∀ u, searchOcc matchAt1 u.toList = none → searchOcc matchAt2 u.toList = none →
      parse_repo_url u = .error (.valueError ("Invalid GitHub repository URL: " ++ u ++
        ". Expected format: https://github.com/owner/repo"))) := by
  refine ⟨rfl, rfl, rfl, ?_, ?_, ?_⟩
  · intro u o r h
    unfold parse_repo_url
    rw [h]
  · intro u o r h1 h2
    unfold parse_repo_url
    rw [h1, h2]
  · intro u h1 h2
    unfold parse_repo_url
    rw [h1, h2]

theorem c7_witness :
    parse_repo_url "x github.com/aa/bb" = .ok ("aa", cleanRepo "bb") :=
  c7_parse_reference_contract.2.2.2.1 "x github.com/aa/bb" "aa" "bb" rfl

/-- C8: buildPrompt is deterministic and bounded: the prompt is a pure
function of the issue record; a body over 4000 characters is truncated to
its first 4000 characters plus the truncation marker; only the first 10
comments are rendered; a rendered comment body over 500 characters is
truncated to 500 characters plus an ellipsis. -/
theorem c8_build_prompt_deterministic_bounded (d : IssueData) :
    create_prompt d = create_prompt d ∧
    create_prompt d =
      promptHeader ++ d.title ++ "\n\n**Issue Body:**\n" ++
      (if truncatedBody d.body = "" then "No description provided" else truncatedBody d.body) ++
      "\n\n**Comments:**\n" ++ commentsText d.comments ++ "\n\n**Existing Labels:** " ++
      (if d.labels.isEmpty then "None" else String.intercalate ", " d.labels) ++
      "\n\nProvide your analysis as valid JSON only:" ∧
    (4000 < d.body.length →
      truncatedBody d.body = String.mk (d.body.toList.take 4000) ++
        "\n... (truncated for length)") ∧
    (d.body.length ≤ 4000 → truncatedBody d.body = d.body) ∧
    commentsText d.comments = commentsText (d.comments.take 10) ∧
    (∀ i c, 500 < (c : CommentRec).body.length →
      renderComment i c = "\nComment " ++ toString i ++ " by " ++ c.author ++ ":\n" ++
        (String.mk (c.body.toList.take 500) ++ "...") ++ "\n") ∧
    (∀ i c, (c : CommentRec).body.length ≤ 500 →
      renderComment i c = "\nComment " ++ toString i ++ " by " ++ c.author ++ ":\n" ++
        c.body ++ "\n") := by
  refine ⟨rfl, rfl, ?_, ?_, ?_, ?_, ?_⟩
  · intro h
    unfold truncatedBody
    rw [if_pos h]
  · intro h
    unfold truncatedBody
    rw [if_neg (not_lt.mpr h)]
  · have h1 : (d.comments.take 10).isEmpty = d.comments.isEmpty := by
      cases d.comments <;> rfl
    have h2 : (d.comments.take 10).take 10 = d.comments.take 10 := by
      rw [List.take_take]
      simp
    unfold commentsText
    rw [h1, h2]
  · intro i c h
    unfold renderComment
    rw [if_pos h]
  · intro i c h
    unfold renderComment
    rw [if_neg (not_lt.mpr h)]

def bigBody : String := String.mk (List.replicate 4001 'a')

def bigComment : CommentRec := ⟨"alice", String.mk (List.replicate 501 'b'), "t0"⟩

def dBig : IssueData :=
  { title := "T", body := bigBody, state := "open", labels := [],
    comments_count := 1, comments := [bigComment], created_at := "c", html_url := "u" }

theorem c8_witness :
    truncatedBody dBig.body =
      String.mk (dBig.body.toList.take 4000) ++ "\n... (truncated for length)" ∧
    renderComment 1 bigComment = "\nComment " ++ toString 1 ++ " by " ++ bigComment.author ++
      ":\n" ++ (String.mk (bigComment.body.toList.take 500) ++ "...") ++ "\n" ∧
    commentsText dBig.comments = commentsText (dBig.comments.take 10) := by
  have h := c8_build_prompt_deterministic_bounded dBig
  have hb : (4000 : Nat) < dBig.body.length := by
    show (4000 : Nat) < (String.mk (List.replicate 4001 'a')).length
    rw [String.length_mk, List.length_replicate]
    decide
  have hcb : (500 : Nat) < bigComment.body.length := by
    show (500 : Nat) < (String.mk (List.replicate 501 'b')).length
    rw [String.length_mk, List.length_replicate]
    decide
  exact ⟨h.2.2.1 hb, h.2.2.2.2.2.1 1 bigComment hcb, h.2.2.2.2.1⟩

/-- C9: computeKey is pure and separates URLs: it is deterministic, and two
distinct raw URL strings always produce distinct keys for the same issue
number, even when they denote the same repository. -/
theorem c9_compute_key_pure_separating :
    (∀ u n, get_cache_key u n = get_cache_key u n) ∧
    (∀ u1 u2 : String, ∀ n : Nat, u1 ≠ u2 → get_cache_key u1 n ≠ get_cache_key u2 n) := by
  refine ⟨fun u n => rfl, ?_⟩
  intro u1 u2 n hne heq
  apply hne
  have hd := congrArg String.data heq
  simp only [get_cache_key, String.data_append] at hd
  exact String.ext (List.append_cancel_right (List.append_cancel_right hd))

theorem c9_witness :
    get_cache_key "https://github.com/o/r" 1 ≠ get_cache_key "https://github.com/o/r/" 1 :=
  c9_compute_key_pure_separating.2 "https://github.com/o/r" "https://github.com/o/r/" 1
    (by decide)

/-- C1: analyzeIssue never raises past its boundary: whenever both attempts
fail (model call or parsing), it still returns the schema-conforming
fallback dictionary whose summary embeds the failure reason, with
`type = "other"`, the indeterminacy priority score,
`suggested_labels = ["needs-triage"]` and the failure-stating impact; the
function is total, so the caller never observes an exception. -/
theorem c1_engine_fallback (gen : Nat → String → Except String String)
    (decode : String → Except String Json) (d : IssueData) (e0 e1 : String)
    (h0 : attemptLLM gen decode d 0 = .error e0)
    (h1 : attemptLLM gen decode d 1 = .error e1) :
    analyze_issue gen decode d =
      fallbackResult ("LLM analysis failed after 2 attempts: " ++ e1) ∧
    jget (analyze_issue gen decode d) "summary" =
      some (.str ("Analysis unavailable: LLM analysis failed after 2 attempts: " ++ e1)) ∧
    jget (analyze_issue gen decode d) "type" = some (.str "other") ∧
    jget (analyze_issue gen decode d) "priority_score" =
      some (.str "3 - Unable to determine automatically") ∧
    jget (analyze_issue gen decode d) "suggested_labels" =
      some (.arr [.str "needs-triage"]) ∧
    jget (analyze_issue gen decode d) "potential_impact" =
      some (.str "Unable to analyze due to LLM error") ∧
    isSchemaConforming (analyze_issue gen decode d) = true := by
  have hres : analyze_issue gen decode d =
      fallbackResult ("LLM analysis failed after 2 attempts: " ++ e1) := by
    unfold analyze_issue
    rw [h0, h1]
  refine ⟨hres, ?_, ?_, ?_, ?_, ?_, ?_⟩ <;> rw [hres] <;> rfl

/-- A small issue record used to exercise the theorems on concrete data. -/
def sampleIssue : IssueData :=
  { title := "t", body := "b", state := "open", labels := ["x"],
    comments_count := 0, comments := [], created_at := "2024-01-01", html_url := "u" }

theorem c1_witness :
    analyze_issue (fun _ _ => .error "boom") (fun _ => .error "bad json") sampleIssue =
      fallbackResult "LLM analysis failed after 2 attempts: boom" ∧
    isSchemaConforming
      (analyze_issue (fun _ _ => .error "boom") (fun _ => .error "bad json") sampleIssue) =
      true := by
  have h := c1_engine_fallback (fun _ _ => .error "boom") (fun _ => .error "bad json")
    sampleIssue "boom" "boom" rfl rfl
  exact ⟨h.1, h.2.2.2.2.2.2⟩

/-- C5: fetchComments never fails its caller: every non-2xx, timeout or
network failure yields the empty list, and with a successful issue fetch
the whole retrieval still succeeds with `comments = []`. -/
theorem c5_comments_never_fail (hc : HttpOutcome) (owner repo : String) (n : Nat)
    (hce : hc.isErr = true) :
    fetch_comments hc owner repo n = [] ∧
    (∀ u issue ow rp, parse_repo_url u = .ok (ow, rp) →
      ∃ rec, get_issue_data (.success issue) hc u n = .ok rec ∧ rec.comments = []) := by
  have hemp : ∀ o r : String, fetch_comments hc o r n = [] := by
    intro o r
    cases hc with
    | success b => simp [HttpOutcome.isErr] at hce
    | httpError s m => rfl
    | requestError m => rfl
  refine ⟨hemp owner repo, ?_⟩
  intro u issue ow rp hparse
  unfold get_issue_data
  rw [hparse]
  refine ⟨_, rfl, ?_⟩
  show (fetch_comments hc ow rp n).map normComment = []
  rw [hemp ow rp]
  rfl

theorem c5_witness :
    fetch_comments (.requestError "timeout") "octocat" "Hello-World" 1 = [] ∧
    ∃ rec, get_issue_data (.success (.obj [("title", .str "T")])) (.requestError "timeout")
        "https://github.com/octocat/Hello-World" 1 = .ok rec ∧ rec.comments = [] := by
  have h := c5_comments_never_fail (.requestError "timeout") "octocat" "Hello-World" 1 rfl
  exact ⟨h.1, h.2 "https://github.com/octocat/Hello-World" (.obj [("title", .str "T")])
    "octocat" "Hello-World" rfl⟩

lemma checkFields_obj_ok (fs : List (String × Json)) (l : List String)
    (h : ∀ f ∈ l, (jfind fs f).isSome = true) :
    checkFields (.obj fs) l = .ok () := by
  induction l with
  | nil => rfl
  | cons f fl ih =>
    have hf := h f (List.mem_cons_self f fl)
    simp only [checkFields, pyContains, hf]
    exact ih (fun g hg => h g (List.mem_cons_of_mem f hg))

lemma checkFields_obj_missing (fs : List (String × Json)) (l : List String)
    (h : ∃ f ∈ l, jfind fs f = none) :
    ∃ g ∈ l, checkFields (.obj fs) l = .error ("Missing required field: " ++ g) := by
  induction l with
  | nil => simp at h
  | cons f fl ih =>
    by_cases hf : (jfind fs f).isSome = true
    · have h' : ∃ g ∈ fl, jfind fs g = none := by
        rcases h with ⟨g, hg, hnone⟩
        rcases List.mem_cons.mp hg with rfl | hgl
        · rw [hnone] at hf
          simp at hf
        · exact ⟨g, hgl, hnone⟩
      rcases ih h' with ⟨g, hgl, heq⟩
      refine ⟨g, List.mem_cons_of_mem f hgl, ?_⟩
      simp only [checkFields, pyContains, hf]
      exact heq
    · have hnone : (jfind fs f).isSome = false := by
        cases hx : (jfind fs f).isSome
        · rfl
        · exact absurd hx hf
      refine ⟨f, List.mem_cons_self f fl, ?_⟩
      simp only [checkFields, pyContains, hnone]

lemma validateParsed_checkFail (data : Json) (m : String)
    (h : checkFields data requiredFields = .error m) :
    validateParsed data = .error m := by
  unfold validateParsed
  rw [h]

lemma pyIndex_obj (L : List (String × Json)) (k : String) (v : Json)
    (h : jfind L k = some v) : pyIndex (.obj L) k = .ok v := by
  simp [pyIndex, h]

/-- Characterization of `validateParsed` on an object with all required
fields present: the result is the object with `type` coerced when
unrecognized and `suggested_labels` wrapped when not a list. -/
lemma validateParsed_obj (fs : List (String × Json)) (t l0 : Json)
    (hall : ∀ f ∈ requiredFields, (jfind fs f).isSome = true)
    (htype : jfind fs "type" = some t)
    (hlab : jfind fs "suggested_labels" = some l0) :
    validateParsed (.obj fs) =
      .ok (if l0.isArr then
             (if t.isStrIn validTypes then .obj fs
              else objSet (.obj fs) "type" (.str "other"))
           else objSet
             (if t.isStrIn validTypes then .obj fs
              else objSet (.obj fs) "type" (.str "other"))
             "suggested_labels" (.arr [.str (pyStr l0)])) := by
  have hok := checkFields_obj_ok fs requiredFields hall
  have hidx : pyIndex (.obj fs) "type" = .ok t := pyIndex_obj fs "type" t htype
  unfold validateParsed
  simp only [hok, hidx]
  by_cases hv : t.isStrIn validTypes = true
  · have hidx2 : pyIndex (.obj fs) "suggested_labels" = .ok l0 :=
      pyIndex_obj fs "suggested_labels" l0 hlab
    simp only [hv, if_true, hidx2]
  · have hv' : t.isStrIn validTypes = false := by
      cases hx : t.isStrIn validTypes
      · rfl
      · exact absurd hx hv
    have hne : ("suggested_labels" : String) ≠ "type" := by decide
    have hpres : jget (objSet (.obj fs) "type" (.str "other")) "suggested_labels" = some l0 := by
      rw [jget_objSet_ne _ _ _ _ hne]
      simpa [jget] using hlab
    have hidx2 : pyIndex (objSet (.obj fs) "type" (.str "other")) "suggested_labels" = .ok l0 := by
      apply pyIndex_obj
      simpa [objSet, jget] using hpres
    simp only [hv', Bool.false_eq_true, if_false, objSet] at hidx2 ⊢
    simp only [hidx2]

/-- C6: parseResponse contract: on fenced input only the interior between
the first and next fence lines is decoded; a missing required field makes
it fail with `MalformedOutput` (`ValueError`); an unrecognized `type` is
coerced to `"other"` instead of failing; a non-sequence `suggested_labels`
is coerced to the single-element list of its string form instead of
failing. -/
theorem c6_parse_response_contract :
    (∀ decode txt, fencePat.isPrefixOf (pyStrip txt.toList) = true →
      parse_response decode txt = parseDecoded decode (extractFenced (pyStrip txt.toList))) ∧
    (∀ decode txt data, decode (String.mk (stripFence txt)) = .ok data →
      parse_response decode txt = validateParsed data) ∧
    (∀ fs, (∃ f ∈ requiredFields, jfind fs f = none) →
      ∃ g ∈ requiredFields,
        validateParsed (.obj fs) = .error ("Missing required field: " ++ g)) ∧
    (∀ fs t, (∀ f ∈ requiredFields, (jfind fs f).isSome = true) →
      jfind fs "type" = some t → t.isStrIn validTypes = false →
      ∃ res, validateParsed (.obj fs) = .ok res ∧ jget res "type" = some (.str "other")) ∧
    (∀ fs l, (∀ f ∈ requiredFields, (jfind fs f).isSome = true) →
      jfind fs "suggested_labels" = some l → l.isArr = false →
      ∃ res, validateParsed (.obj fs) = .ok res ∧
        jget res "suggested_labels" = some (.arr [.str (pyStr l)])) := by
  refine ⟨?_, ?_, ?_, ?_, ?_⟩
  · intro decode txt h
    unfold parse_response stripFence
    simp only [h, if_true]
  · intro decode txt data h
    unfold parse_response parseDecoded
    rw [h]
  · intro fs hex
    rcases checkFields_obj_missing fs requiredFields hex with ⟨g, hg, heq⟩
    exact ⟨g, hg, validateParsed_checkFail _ _ heq⟩
  · intro fs t hall htype hinv
    have hlabS : (jfind fs "suggested_labels").isSome = true :=
      hall "suggested_labels" (by simp [requiredFields])
    rcases Option.isSome_iff_exists.mp hlabS with ⟨l0, hl0⟩
    have hchar := validateParsed_obj fs t l0 hall htype hl0
    refine ⟨_, hchar, ?_⟩
    have hne : ("type" : String) ≠ "suggested_labels" := by decide
    by_cases ha : l0.isArr = true
    · simp only [ha, if_true, hinv, Bool.false_eq_true, if_false]
      exact jget_objSet_self (.obj fs) "type" (.str "other")
    · have ha' : l0.isArr = false := by
        cases hx : l0.isArr
        · rfl
        · exact absurd hx ha
      simp only [ha', Bool.false_eq_true, if_false, hinv]
      rw [jget_objSet_ne _ _ _ _ hne]
      exact jget_objSet_self (.obj fs) "type" (.str "other")
  · intro fs l hall hlab hnarr
    have htypS : (jfind fs "type").isSome = true :=
      hall "type" (by simp [requiredFields])
    rcases Option.isSome_iff_exists.mp htypS with ⟨t, ht⟩
    have hchar := validateParsed_obj fs t l hall ht hlab
    refine ⟨_, hchar, ?_⟩
    simp only [hnarr, Bool.false_eq_true, if_false]
    exact jget_objSet_self _ "suggested_labels" (.arr [.str (pyStr l)])

/-- Concrete parsed objects used to exercise the parse_response claims. -/
def fsMissing : List (String × Json) :=
  [("summary", .str "s"), ("type", .str "bug"), ("priority_score", .str "3 - x"),
   ("suggested_labels", .arr [.str "bug"])]

def fsTypo : List (String × Json) :=
  [("summary", .str "s"), ("type", .str "typo"), ("priority_score", .str "3 - x"),
   ("suggested_labels", .arr [.str "bug"]), ("potential_impact", .str "p")]

def fsScalarLabels : List (String × Json) :=
  [("summary", .str "s"), ("type", .str "bug"), ("priority_score", .str "3 - x"),
   ("suggested_labels", .str "bug"), ("potential_impact", .str "p")]

theorem c6_witness :
    (∃ g ∈ requiredFields,
      validateParsed (.obj fsMissing) = .error ("Missing required field: " ++ g)) ∧
    (∃ res, validateParsed (.obj fsTypo) = .ok res ∧
      jget res "type" = some (.str "other")) ∧
    (∃ res, validateParsed (.obj fsScalarLabels) = .ok res ∧
      jget res "suggested_labels" = some (.arr [.str (pyStr (.str "bug"))])) ∧
    parse_response (fun _ => .error "nope") "```json\nPAYLOAD\n```" =
      parseDecoded (fun _ => .error "nope")
        (extractFenced (pyStrip ("```json\nPAYLOAD\n```").toList)) := by
  refine ⟨c6_parse_response_contract.2.2.1 fsMissing
            ⟨"potential_impact", by simp [requiredFields], rfl⟩,
          c6_parse_response_contract.2.2.2.1 fsTypo (.str "typo") (by decide) rfl rfl,
          c6_parse_response_contract.2.2.2.2 fsScalarLabels (.str "bug") (by decide) rfl rfl,
          c6_parse_response_contract.1 (fun _ => .error "nope") "```json\nPAYLOAD\n```" rfl⟩

lemma handleCore_ok (cfg : Config) (w : World) (t : Int) (c1 : CacheDict) (key u : String)
    (n : Nat) (d : Json) (c' : CacheDict) (b : Bool)
    (h : handleCore cfg w t c1 key u n = (.ok d, c', b)) :
    b = true ∧ c' = set_cache cfg c1 key d t ∧
    ∃ issue_data, get_issue_data w.httpIssue w.httpComments u n = .ok issue_data ∧
      d = objSet (analyze_issue w.gen w.decode issue_data) "metadata" (metaJson issue_data) := by
  unfold handleCore at h
  cases hg : get_issue_data w.httpIssue w.httpComments u n with
  | error e =>
    rw [hg] at h
    simp at h
  | ok issue_data =>
    rw [hg] at h
    simp only [Prod.mk.injEq, Except.ok.injEq] at h
    rcases h with ⟨h1, h2, h3⟩
    exact ⟨h3.symm, by rw [← h1, ← h2], issue_data, rfl, h1.symm⟩

lemma handleAnalyze_miss (cfg : Config) (w : World) (t : Int) (c : CacheDict) (u : String)
    (n : Nat) (h : (get_from_cache cfg c (get_cache_key u n) t).1 = none) :
    handleAnalyze cfg w t c u n =
      handleCore cfg w t (get_from_cache cfg c (get_cache_key u n) t).2
        (get_cache_key u n) u n := by
  unfold handleAnalyze
  rcases hq : get_from_cache cfg c (get_cache_key u n) t with ⟨cached, c1⟩
  rw [hq] at h
  cases cached with
  | none => rfl
  | some d0 => simp at h

lemma get_from_cache_some (cfg : Config) (c : CacheDict) (key : String) (now : Int) (v : Json)
    (h : (get_from_cache cfg c key now).1 = some v) :
    ∃ ts, cacheFind c key = some (v, ts) := by
  by_cases he : cfg.CACHE_ENABLED = true
  · rcases hf : cacheFind c key with _ | ⟨data, ts⟩
    · simp [get_from_cache, he, hf] at h
    · by_cases ht : now - ts < cfg.CACHE_TTL
      · simp [get_from_cache, he, hf, ht] at h
        subst h
        exact ⟨ts, rfl⟩
      · simp [get_from_cache, he, hf, ht] at h
  · have he' : cfg.CACHE_ENABLED = false := by
      cases hx : cfg.CACHE_ENABLED
      · rfl
      · exact absurd hx he
    simp [get_from_cache, he'] at h

lemma goodCache_erase (c : CacheDict) (k : String) (hg : goodCache c) :
    goodCache (cacheErase c k) := by
  intro k' v ts hf
  rw [cacheFind_erase] at hf
  by_cases hk : k' = k
  · rw [if_pos hk] at hf
    cases hf
  · rw [if_neg hk] at hf
    exact hg k' v ts hf

lemma get_from_cache_snd_good (cfg : Config) (c : CacheDict) (key : String) (now : Int)
    (hg : goodCache c) : goodCache (get_from_cache cfg c key now).2 := by
  by_cases he : cfg.CACHE_ENABLED = true
  · rcases hf : cacheFind c key with _ | ⟨data, ts⟩
    · simpa [get_from_cache, he, hf] using hg
    · by_cases ht : now - ts < cfg.CACHE_TTL
      · simpa [get_from_cache, he, hf, ht] using hg
      · simpa [get_from_cache, he, hf, ht] using goodCache_erase c key hg
  · have he' : cfg.CACHE_ENABLED = false := by
      cases hx : cfg.CACHE_ENABLED
      · rfl
      · exact absurd hx he
    simpa [get_from_cache, he'] using hg

lemma goodCache_set (cfg : Config) (c1 : CacheDict) (key : String) (d : Json) (t : Int)
    (hg1 : goodCache c1) (hd : metaCachedFlag d = some (.bool false)) :
    goodCache (set_cache cfg c1 key d t) := by
  unfold set_cache
  by_cases he : cfg.CACHE_ENABLED = true
  · rw [if_pos he]
    intro k v ts hf
    by_cases hk : k = key
    · subst hk
      rw [cacheFind_insert_self] at hf
      simp only [Option.some.injEq, Prod.mk.injEq] at hf
      rw [← hf.1]
      exact hd
    · rw [cacheFind_insert_ne _ _ _ _ hk] at hf
      exact hg1 k v ts hf
  · rw [if_neg he]
    exact hg1

lemma metaCachedFlag_fresh (a : Json) (i : IssueData) :
    metaCachedFlag (objSet a "metadata" (metaJson i)) = some (.bool false) := by
  unfold metaCachedFlag
  rw [jget_objSet_self]
  rfl

lemma handleCore_flag_good (cfg : Config) (w : World) (t : Int) (c1 : CacheDict)
    (key u : String) (n : Nat) (d : Json) (c' : CacheDict) (b : Bool)
    (hg1 : goodCache c1) (h : handleCore cfg w t c1 key u n = (.ok d, c', b)) :
    metaCachedFlag d = some (.bool false) ∧ goodCache c' := by
  rcases handleCore_ok cfg w t c1 key u n d c' b h with ⟨_, hc', issue_data, _, hd⟩
  have hflag : metaCachedFlag d = some (.bool false) := by
    rw [hd]
    exact metaCachedFlag_fresh _ issue_data
  exact ⟨hflag, by rw [hc']; exact goodCache_set cfg c1 key d t hg1 hflag⟩

/-- C3: with caching enabled, after a first request that was computed by
the backend (cache miss, Retriever and Engine invoked) and succeeded, a
second identical request within `CACHE_TTL` seconds returns the identical
response content and does not invoke the Retriever or the Engine again
(the second request's collaborators `w2` are arbitrary and unused). -/
theorem c3_cache_hit_no_recompute (cfg : Config) (w1 w2 : World) (t1 t2 : Int)
    (c c' : CacheDict) (u : String) (n : Nat) (d : Json)
    (hen : cfg.CACHE_ENABLED = true)
    (hfirst : handleAnalyze cfg w1 t1 c u n = (.ok d, c', true))
    (hfresh : t2 - t1 < cfg.CACHE_TTL) :
    handleAnalyze cfg w2 t2 c' u n = (.ok d, c', false) := by
  unfold handleAnalyze at hfirst
  rcases hq : get_from_cache cfg c (get_cache_key u n) t1 with ⟨cached, c1⟩
  rw [hq] at hfirst
  have hcore : handleCore cfg w1 t1 c1 (get_cache_key u n) u n = (.ok d, c', true) := by
    cases cached with
    | none => exact hfirst
    | some d0 =>
      by_cases htr : d0.pyTruthy = true
      · simp [htr] at hfirst
      · simpa [htr] using hfirst
  rcases handleCore_ok cfg w1 t1 c1 (get_cache_key u n) u n d c' true hcore with
    ⟨_, hc', issue_data, _, hd⟩
  have hc2 : c' = cacheInsert c1 (get_cache_key u n) (d, t1) := by
    rw [hc']
    simp [set_cache, hen]
  have hfind : cacheFind c' (get_cache_key u n) = some (d, t1) := by
    rw [hc2]
    exact cacheFind_insert_self c1 (get_cache_key u n) (d, t1)
  have hlook : get_from_cache cfg c' (get_cache_key u n) t2 = (some d, c') := by
    simp [get_from_cache, hen, hfind, hfresh]
  unfold handleAnalyze
  rw [hlook]
  have htr : d.pyTruthy = true := by
    rw [hd]
    exact objSet_pyTruthy _ "metadata" (metaJson issue_data)
  simp [htr]

/-- An issue payload and worlds used by the orchestration witnesses. -/
def issuePayload : Json :=
  .obj [("title", .str "T"), ("body", .str "B"), ("state", .str "open"),
        ("labels", .arr []), ("comments", .num 0), ("created_at", .str "2024-01-01"),
        ("html_url", .str "https://github.com/o/r/issues/1")]

def wDown : World :=
  ⟨.success issuePayload, .success (.arr []),
   fun _ _ => .error "llm down", fun _ => .error "unused"⟩

def wUnreachable : World :=
  ⟨.requestError "connection refused", .requestError "connection refused",
   fun _ _ => .error "no llm", fun _ => .error "no json"⟩

def resFirst : Except HTTPErr Json × CacheDict × Bool :=
  handleAnalyze cfgOn wDown 0 ([] : CacheDict) "https://github.com/o/r" 1

def dFirst : Json :=
  match resFirst.1 with
  | .ok d => d
  | .error _ => .null

def cFirst : CacheDict := resFirst.2.1

theorem c3_witness :
    handleAnalyze cfgOn wUnreachable 10 cFirst "https://github.com/o/r" 1 =
      (.ok dFirst, cFirst, false) :=
  c3_cache_hit_no_recompute cfgOn wDown wUnreachable 0 10 [] cFirst
    "https://github.com/o/r" 1 dFirst rfl rfl (by decide)

/-- C10: the `cached` flag in the response metadata is always `False`:
every fresh response is built with `cached = False`, a cache hit returns
the stored response unchanged, and the stored-response invariant is
preserved, so no client-observable response ever carries `cached = True`. -/
theorem c10_cached_flag_always_false (cfg : Config) (w : World) (t : Int) (c : CacheDict)
    (u : String) (n : Nat) (d : Json) (c' : CacheDict) (b : Bool)
    (hg : goodCache c)
    (h : handleAnalyze cfg w t c u n = (.ok d, c', b)) :
    metaCachedFlag d = some (.bool false) ∧ goodCache c' := by
  unfold handleAnalyze at h
  rcases hq : get_from_cache cfg c (get_cache_key u n) t with ⟨cached, c1⟩
  rw [hq] at h
  have hg1 : goodCache c1 := by
    have h2 := get_from_cache_snd_good cfg c (get_cache_key u n) t hg
    rw [hq] at h2
    exact h2
  cases cached with
  | none => exact handleCore_flag_good cfg w t c1 (get_cache_key u n) u n d c' b hg1 h
  | some d0 =>
    by_cases htr : d0.pyTruthy = true
    · have hsome : (get_from_cache cfg c (get_cache_key u n) t).1 = some d0 := by
        rw [hq]
      rcases get_from_cache_some cfg c (get_cache_key u n) t d0 hsome with ⟨ts, hf⟩
      have hflag : metaCachedFlag d0 = some (.bool false) :=
        hg (get_cache_key u n) d0 ts hf
      simp only [htr, if_true] at h
      simp only [Prod.mk.injEq, Except.ok.injEq] at h
      obtain ⟨h1, h2, _⟩ := h
      subst h1
      subst h2
      exact ⟨hflag, hg1⟩
    · simp only [htr, if_false] at h
      exact handleCore_flag_good cfg w t c1 (get_cache_key u n) u n d c' b hg1 h

theorem c10_witness :
    metaCachedFlag dFirst = some (.bool false) ∧ goodCache cFirst :=
  c10_cached_flag_always_false cfgOn wDown 0 [] "https://github.com/o/r" 1 dFirst cFirst true
    (fun k v ts hf => by simp [cacheFind] at hf) rfl

lemma handleCore_fetch_error (cfg : Config) (w : World) (t : Int) (c1 : CacheDict)
    (key u : String) (n : Nat) (ow rp m : String)
    (hparse : parse_repo_url u = .ok (ow, rp))
    (hfe : fetch_issue w.httpIssue ow rp n = .error (.valueError m)) :
    handleCore cfg w t c1 key u n = (.error ⟨400, m⟩, c1, true) := by
  unfold handleCore get_issue_data
  rw [hparse]
  simp only [hfe]
  rfl

/-- C4 counterexample: a network-level failure of the issue fetch reaches
the client as HTTP 400 (the `ValueError` arm), not as a 500-class
response as the claim states. -/
theorem c4_counterexample :
    (handleAnalyze cfgOff wUnreachable 0 [] "https://github.com/octocat/Hello-World" 1).1 =
      .error ⟨400, "Failed to connect to GitHub API: connection refused"⟩ ∧
    (400 : Nat) ≠ 500 :=
  ⟨rfl, by decide⟩

/-- C4 (amended): when fetchIssue fails with a network-level failure or a
non-2xx status other than 404 and 403, the error is raised as a
`ValueError` (like the invalid-reference, not-found and rate-limited
cases) and the client therefore receives HTTP 400, not a 500-class
response; HTTP 500 arises only from non-`ValueError` exceptions, which
fetchIssue never raises. -/
theorem c4_fetch_error_maps_to_400 (cfg : Config) (w : World) (t : Int) (c : CacheDict)
    (u : String) (n : Nat) (ow rp : String)
    (hparse : parse_repo_url u = .ok (ow, rp))
    (hmiss : (get_from_cache cfg c (get_cache_key u n) t).1 = none) :
    (∀ m, w.httpIssue = .requestError m →
      (handleAnalyze cfg w t c u n).1 =
        .error ⟨400, "Failed to connect to GitHub API: " ++ m⟩) ∧
    (∀ s m, w.httpIssue = .httpError s m → s ≠ 404 → s ≠ 403 →
      (handleAnalyze cfg w t c u n).1 = .error ⟨400, "GitHub API error: " ++ m⟩) := by
  constructor
  · intro m hw
    have hfe : fetch_issue w.httpIssue ow rp n =
        .error (.valueError ("Failed to connect to GitHub API: " ++ m)) := by
      rw [hw]
      rfl
    rw [handleAnalyze_miss cfg w t c u n hmiss,
      handleCore_fetch_error cfg w t _ (get_cache_key u n) u n ow rp _ hparse hfe]
  · intro s m hw h404 h403
    have hfe : fetch_issue w.httpIssue ow rp n =
        .error (.valueError ("GitHub API error: " ++ m)) := by
      rw [hw]
      simp [fetch_issue, h404, h403]
    rw [handleAnalyze_miss cfg w t c u n hmiss,
      handleCore_fetch_error cfg w t _ (get_cache_key u n) u n ow rp _ hparse hfe]

def wBadGateway : World :=
  ⟨.httpError 502 "502 Server Error: Bad Gateway for url", .requestError "x",
   fun _ _ => .error "no llm", fun _ => .error "no json"⟩

theorem c4_witness :
    (handleAnalyze cfgOff wBadGateway 0 [] "https://github.com/octocat/Hello-World" 1).1 =
      .error ⟨400, "GitHub API error: 502 Server Error: Bad Gateway for url"⟩ :=
  (c4_fetch_error_maps_to_400 cfgOff wBadGateway 0 [] "https://github.com/octocat/Hello-World"
    1 "octocat" "Hello-World" rfl rfl).2 502 "502 Server Error: Bad Gateway for url"
    rfl (by decide) (by decide)
